import Mathlib

/-!
Verification of the peer session and state-synchronization layer of the
boomsync repository (src/services/peerService.ts, together with the
application-level message handler in src/App.tsx and the room-code
generator in src/components/SyncModal.tsx / src/App.tsx).

The TypeScript `PeerService` class is a single-threaded, event-driven
object.  We embed it shallowly: its mutable fields become a `PeerState`
record, and every event handler or method becomes a pure function
`PeerState → ... → PeerState × List Action`, where the returned action
list records, in program order, the externally visible effects the
handler performs (sends on connections, closes, callback invocations,
and the elapsed `setTimeout` delay in `deleteRoom`).

The opaque application snapshot (`GameState`) is modelled as a `Nat`;
the sync layer never inspects it.
-/

namespace BoomSync

/-- Wire messages, from `SyncMessage` in src/types.ts. -/
inductive SyncMessage where
  | syncState (state : Nat)
  | heartbeat (peerId : String)
  | connectionCount (count : Nat)
  | roomDeleted
  | requestState
  | explosion
deriving DecidableEq, Repr

/-- A registry entry, from `ConnectionInfo` in peerService.ts.  The
`isOpen` flag models the transport handle's `connection.open` property,
which the service reads before every send. -/
structure ConnectionInfo where
  peerId : String
  lastSeen : Nat
  isOpen : Bool
deriving DecidableEq, Repr

/-- The mutable fields of the `PeerService` class.  The two interval
timers are modelled as booleans recording whether the timer is
installed; `peer` is the transport identity (`null` when destroyed). -/
structure PeerState where
  peer : Option String
  connections : List ConnectionInfo
  isHost : Bool
  roomCode : Option String
  connectionCount : Nat
  maxConnectionCount : Nat
  heartbeatInterval : Bool
  timeoutCheckInterval : Bool
deriving DecidableEq, Repr

/-- `HEARTBEAT_INTERVAL` in peerService.ts (milliseconds). -/
def HEARTBEAT_INTERVAL : Nat := 5000

/-- `CONNECTION_TIMEOUT` in peerService.ts (milliseconds). -/
def CONNECTION_TIMEOUT : Nat := 15000

/-- Externally visible effects of a handler, in program order. -/
inductive Action where
  | send (toPeer : String) (msg : SyncMessage)
  | close (peer : String)
  | observerNotify (msg : SyncMessage)
  | connectionCountChange (count : Nat)
  | roomDeletedNotify
  | connectedNotify
  | disconnectedNotify
  | delay (ms : Nat)
deriving DecidableEq, Repr

/-- The `connections.forEach { if open then send }` pattern used by
`send`, `broadcastConnectionCount`, the heartbeat tick and
`deleteRoom`. -/
def sendToOpen (conns : List ConnectionInfo) (msg : SyncMessage) : List Action :=
  (conns.filter (·.isOpen)).map (fun c => Action.send c.peerId msg)

/-- `PeerService.send`: broadcast to every open registered connection. -/
def send (s : PeerState) (msg : SyncMessage) : List Action :=
  sendToOpen s.connections msg

/-- `PeerService.broadcastConnectionCount`. -/
def broadcastConnectionCount (s : PeerState) : List Action :=
  sendToOpen s.connections (.connectionCount s.connectionCount)

/-- `PeerService.updateConnectionCount`: recompute `connections.size + 1`,
update the maximum, broadcast the new count, fire the count-change
callback. -/
def updateConnectionCount (s : PeerState) : PeerState × List Action :=
  let count := s.connections.length + 1
  let s' := { s with
    connectionCount := count
    maxConnectionCount := max s.maxConnectionCount count }
  (s', broadcastConnectionCount s' ++ [Action.connectionCountChange count])

/-- `PeerService.relayMessage`: forward to every open connection whose
peer id differs from the sender's. -/
def relayMessage (s : PeerState) (msg : SyncMessage) (excludePeerId : String) :
    List Action :=
  (s.connections.filter (fun c => c.peerId != excludePeerId && c.isOpen)).map
    (fun c => Action.send c.peerId msg)

/-- `this.connections.get(conn.peer)` followed by `lastSeen = Date.now()`:
update the timestamp of the matching entry, no-op when absent. -/
def touch (conns : List ConnectionInfo) (p : String) (now : Nat) :
    List ConnectionInfo :=
  conns.map (fun c => if c.peerId = p then { c with lastSeen := now } else c)

/-- `this.connections.set(conn.peer, connInfo)`: overwrite the entry for
this key if present, else append a fresh one.  At the `open` event the
handle is open. -/
def registrySet (conns : List ConnectionInfo) (p : String) (now : Nat) :
    List ConnectionInfo :=
  if conns.any (fun c => c.peerId = p) then
    conns.map (fun c =>
      if c.peerId = p then { peerId := p, lastSeen := now, isOpen := true } else c)
  else
    conns ++ [{ peerId := p, lastSeen := now, isOpen := true }]

/-- `this.connections.delete(p)`. -/
def registryRemove (conns : List ConnectionInfo) (p : String) :
    List ConnectionInfo :=
  conns.filter (fun c => c.peerId != p)

/-- `PeerService.stopHeartbeat`: clear both interval timers. -/
def stopHeartbeat (s : PeerState) : PeerState :=
  { s with heartbeatInterval := false, timeoutCheckInterval := false }

/-- `PeerService.disconnect`: stop both timers, close every registered
connection, clear the registry, destroy the transport identity, and
reset role/room/count state to the standalone default. -/
def disconnect (s : PeerState) : PeerState × List Action :=
  let s1 := stopHeartbeat s
  let closes := s1.connections.map (fun c => Action.close c.peerId)
  ({ s1 with
      connections := []
      peer := none
      isHost := true
      roomCode := none
      connectionCount := 0
      maxConnectionCount := 0 },
   closes)

/-- `PeerService.deleteRoom`: non-hosts only log a warning; the host
broadcasts `ROOM_DELETED` to every open connection, then after a 100 ms
`setTimeout` performs `disconnect`. -/
def deleteRoom (s : PeerState) : PeerState × List Action :=
  if !s.isHost then
    (s, [])
  else
    let deleteMsgSends := sendToOpen s.connections .roomDeleted
    let (s', closes) := disconnect s
    (s', deleteMsgSends ++ [Action.delay 100] ++ closes)

/-- The `conn.on('data', ...)` handler installed by
`PeerService.setupConnection`, dispatching on the message type exactly
as the chain of `if` statements in the source does: heartbeats update
`lastSeen` and return before the observer loop; `CONNECTION_COUNT` on a
non-host caches the count and fires the count-change callback, then
falls through to the observer loop; `ROOM_DELETED` on a non-host fires
the room-deleted callback, disconnects and returns; `SYNC_STATE` on the
host is relayed to the other connections before the observer loop; every
message that reaches the end of the handler is passed to the registered
`onMessage` observers. -/
def handleData (s : PeerState) (fromPeer : String) (msg : SyncMessage)
    (now : Nat) : PeerState × List Action :=
  match msg with
  | .heartbeat _ =>
      ({ s with connections := touch s.connections fromPeer now }, [])
  | .connectionCount count =>
      if !s.isHost then
        ({ s with
            connectionCount := count
            maxConnectionCount := max s.maxConnectionCount count },
         [Action.connectionCountChange count, Action.observerNotify msg])
      else
        (s, [Action.observerNotify msg])
  | .roomDeleted =>
      if !s.isHost then
        let (s', acts) := disconnect s
        (s', Action.roomDeletedNotify :: acts)
      else
        (s, [Action.observerNotify msg])
  | .syncState _ =>
      if s.isHost then
        (s, relayMessage s msg fromPeer ++ [Action.observerNotify msg])
      else
        (s, [Action.observerNotify msg])
  | .requestState => (s, [Action.observerNotify msg])
  | .explosion => (s, [Action.observerNotify msg])

/-- The `conn.on('open', ...)` handler of
`PeerService.handleIncomingConnection`: register the connection, on the
host recount and broadcast, then fire the connected callback. -/
def handleIncomingOpen (s : PeerState) (p : String) (now : Nat) :
    PeerState × List Action :=
  let s1 := { s with connections := registrySet s.connections p now }
  if s1.isHost then
    let (s2, acts) := updateConnectionCount s1
    (s2, acts ++ [Action.connectedNotify])
  else
    (s1, [Action.connectedNotify])

/-- The `conn.on('close', ...)` handler of
`PeerService.handleIncomingConnection`. -/
def handleIncomingClose (s : PeerState) (p : String) :
    PeerState × List Action :=
  let s1 := { s with connections := registryRemove s.connections p }
  if s1.isHost then
    let (s2, acts) := updateConnectionCount s1
    (s2, acts ++ [Action.disconnectedNotify])
  else
    (s1, [Action.disconnectedNotify])

/-- The `conn.on('error', ...)` handler of
`PeerService.handleIncomingConnection`. -/
def handleIncomingError (s : PeerState) (p : String) :
    PeerState × List Action :=
  let s1 := { s with connections := registryRemove s.connections p }
  if s1.isHost then
    updateConnectionCount s1
  else
    (s1, [])

/-- The `conn.on('open', ...)` handler of
`PeerService.handleOutgoingConnection`: register, send `REQUEST_STATE`
to the host, fire the connected callback. -/
def handleOutgoingOpen (s : PeerState) (p : String) (now : Nat) :
    PeerState × List Action :=
  ({ s with connections := registrySet s.connections p now },
   [Action.send p .requestState, Action.connectedNotify])

/-- The `conn.on('close', ...)` handler of
`PeerService.handleOutgoingConnection`: remove the connection; a
non-host fires the room-deleted callback; then the disconnected
callback. -/
def handleOutgoingClose (s : PeerState) (p : String) :
    PeerState × List Action :=
  let s1 := { s with connections := registryRemove s.connections p }
  if !s1.isHost then
    (s1, [Action.roomDeletedNotify, Action.disconnectedNotify])
  else
    (s1, [Action.disconnectedNotify])

/-- The `conn.on('error', ...)` handler of
`PeerService.handleOutgoingConnection`: it only removes the connection
from the registry. -/
def handleOutgoingError (s : PeerState) (p : String) :
    PeerState × List Action :=
  ({ s with connections := registryRemove s.connections p }, [])

/-- Whether a connection is overdue at `now`, as tested by the
`timeoutCheckInterval` body: `now - connInfo.lastSeen > CONNECTION_TIMEOUT`. -/
def isStale (now : Nat) (c : ConnectionInfo) : Bool :=
  decide (CONNECTION_TIMEOUT < now - c.lastSeen)

/-- One firing of the host's `timeoutCheckInterval`: close and remove
every overdue connection; if at least one was removed, recount and
broadcast. -/
def timeoutSweep (s : PeerState) (now : Nat) : PeerState × List Action :=
  let stale := s.connections.filter (isStale now)
  let keep := s.connections.filter (fun c => !isStale now c)
  let closes := stale.map (fun c => Action.close c.peerId)
  let s1 := { s with connections := keep }
  if stale.isEmpty then
    (s1, closes)
  else
    let (s2, acts) := updateConnectionCount s1
    (s2, closes ++ acts)

/-- The application-layer `onMessage` observer registered in
src/App.tsx: on `REQUEST_STATE`, a host answers with
`peerService.send({ type: 'SYNC_STATE', state })`; the `SYNC_STATE` and
`EXPLOSION` branches only update local UI state and send nothing to
peers. -/
def appOnMessage (s : PeerState) (gameState : Nat) (msg : SyncMessage) :
    List Action :=
  match msg with
  | .requestState => if s.isHost then send s (.syncState gameState) else []
  | _ => []

/-- End-to-end handling of a `REQUEST_STATE` arriving at the host: the
sync core forwards it to the observers, and the App observer reacts by
sending the current snapshot via `PeerService.send`. -/
def hostHandleRequestState (s : PeerState) (fromPeer : String) (now gameState : Nat) :
    PeerState × List Action :=
  let (s1, acts) := handleData s fromPeer .requestState now
  (s1, acts ++ appOnMessage s1 gameState .requestState)

/-!
Room-code generator, from `generateShortCode` in src/components/SyncModal.tsx
and src/App.tsx:

    Math.random().toString(36).substring(2, 8).toUpperCase()

`Math.random()` returns a double of the form `k / 2^53` with
`0 ≤ k < 2^53`.  For such dyadic fractions the base-36 expansion always
terminates within 27 digits, and `Number.prototype.toString(36)` prints
`"0"` for zero and otherwise `"0."` followed by the terminating
expansion with no trailing zeros.  We model the generator as a function
of the numerator `k`.
-/

/-- Base-36 digits of the fraction `num / den`, most significant first,
stopping when the remainder is exhausted (`fuel` bounds the recursion;
`fuel = 64` is ample for `den = 2^53`). -/
def frac36Digits (fuel num den : Nat) : List Nat :=
  match fuel with
  | 0 => []
  | fuel + 1 =>
      if num = 0 then []
      else num * 36 / den :: frac36Digits fuel (num * 36 % den) den

/-- The lower-case base-36 digit characters used by `toString(36)`. -/
def digitChar36 (d : Nat) : Char :=
  if d < 10 then Char.ofNat (48 + d) else Char.ofNat (87 + d)

/-- `(k / 2^53).toString(36)` for `0 ≤ k < 2^53`. -/
def randomToString36 (k : Nat) : String :=
  if k = 0 then "0"
  else "0." ++ String.mk ((frac36Digits 64 k (2 ^ 53)).map digitChar36)

/-- `.toUpperCase()` on the ASCII strings produced here: upper-case
every character. -/
def asciiToUpper (s : String) : String :=
  String.mk (s.data.map Char.toUpper)

/-- `generateShortCode` applied to the draw `Math.random() = k / 2^53`:
`.substring(2, 8)` keeps the characters at positions 2 to 7, and the
result is upper-cased. -/
def generateShortCode (k : Nat) : String :=
  asciiToUpper (((randomToString36 k).drop 2).take 6)

/-!
Concrete fixture states used by counterexamples and witnesses: a host
with two open joiner connections `A` and `B`, a joiner connected to
host `H`, and a host holding one registered but no-longer-open
connection.
-/

def connA : ConnectionInfo := { peerId := "A", lastSeen := 0, isOpen := true }

def connB : ConnectionInfo := { peerId := "B", lastSeen := 0, isOpen := true }

def connH : ConnectionInfo := { peerId := "H", lastSeen := 0, isOpen := true }

def hostState0 : PeerState :=
  { peer := some "ROOM01", connections := [connA, connB], isHost := true,
    roomCode := some "ROOM01", connectionCount := 3, maxConnectionCount := 3,
    heartbeatInterval := true, timeoutCheckInterval := true }

def joinerState0 : PeerState :=
  { peer := some "J", connections := [connH], isHost := false,
    roomCode := some "H", connectionCount := 2, maxConnectionCount := 2,
    heartbeatInterval := true, timeoutCheckInterval := false }

def hostWithClosedConn : PeerState :=
  { hostState0 with connections := [{ peerId := "A", lastSeen := 0, isOpen := false }] }

/-!
Claim theorems.
-/

/-- C7: the claim says every value returned by the room-code generator
is a 6-character string.  The code is
`Math.random().toString(36).substring(2, 8).toUpperCase()` under the
comment "Generate 6 character alpha-numeric code", yet on the draw
`Math.random() = 0.5` (numerator `2^52` of `2^53`) the base-36 string is
`"0.i"` and the generated code is `"I"`, of length 1, contradicting the
code's own comment. -/
theorem C7_generateShortCode_length_bug :
    generateShortCode (2 ^ 52) = "I" ∧
    (generateShortCode (2 ^ 52)).length = 1 := by
  decide

/-- C10: when the process is not the host, `deleteRoom` only logs a
warning: it sends no message, closes no connection, and leaves the whole
service state unchanged. -/
theorem C10_deleteRoom_nonhost_noop (s : PeerState) (h : s.isHost = false) :
    deleteRoom s = (s, []) := by
  simp [deleteRoom, h]

theorem C10_deleteRoom_nonhost_noop_witness :
    deleteRoom joinerState0 = (joinerState0, []) :=
  C10_deleteRoom_nonhost_noop joinerState0 rfl

/-- C8: `disconnect`, from any state, stops both periodic timers, issues
a close on every registered connection, empties the registry, and resets
the role and room state to the idle default (host role, no room code),
all in the same post-state. -/
theorem C8_disconnect_full_teardown (s : PeerState) :
    (disconnect s).1.heartbeatInterval = false ∧
    (disconnect s).1.timeoutCheckInterval = false ∧
    (∀ c ∈ s.connections, Action.close c.peerId ∈ (disconnect s).2) ∧
    (disconnect s).1.connections = [] ∧
    (disconnect s).1.isHost = true ∧
    (disconnect s).1.roomCode = none := by
  refine ⟨rfl, rfl, ?_, rfl, rfl, rfl⟩
  intro c hc
  simp only [disconnect, stopHeartbeat, List.mem_map]
  exact ⟨c, hc, rfl⟩

theorem C8_disconnect_full_teardown_witness :
    Action.close "A" ∈ (disconnect hostState0).2 :=
  (C8_disconnect_full_teardown hostState0).2.2.1 connA (by decide)

/-- C2 counterexample: the claim says ConnectionCount messages never
reach an application-level message observer, but the
`CONNECTION_COUNT` branch of the data handler does not return, so the
message falls through to the observer loop: a joiner processing
`ConnectionCount 3` forwards it to the observers. -/
theorem C2_connectionCount_reaches_observers :
    Action.observerNotify (.connectionCount 3) ∈
      (handleData joinerState0 "H" (.connectionCount 3) 0).2 := by
  decide

/-- C2 (amended): Heartbeat messages are consumed entirely inside the
sync core — the handler returns before the observer loop, producing no
observable action — while ConnectionCount messages, although their count
is cached and the count-change callback fired, are still forwarded to
the application-level message observers. -/
theorem C2_heartbeat_consumed (s : PeerState) (p pid : String) (n now : Nat) :
    (handleData s p (.heartbeat pid) now).2 = [] ∧
    Action.observerNotify (.connectionCount n) ∈
      (handleData s p (.connectionCount n) now).2 := by
  refine ⟨rfl, ?_⟩
  by_cases h : s.isHost <;> simp [handleData, h]

/-- C9 counterexample: the claim says an error on the host connection
also triggers the room-deleted notification, but the outgoing `error`
handler only removes the connection from the registry: a joiner whose
host connection errors observes no notification at all. -/
theorem C9_error_does_not_notify :
    Action.roomDeletedNotify ∉ (handleOutgoingError joinerState0 "H").2 := by
  decide

/-- C9 (amended): for a joiner, the room-deleted notification is
triggered both by receiving a `RoomDeleted` message from the host and by
the host connection closing unexpectedly; an error event on the host
connection, by contrast, only removes the connection and triggers no
notification. -/
theorem C9_roomDeleted_triggers (s : PeerState) (p : String) (now : Nat)
    (hJoiner : s.isHost = false) :
    Action.roomDeletedNotify ∈ (handleData s p .roomDeleted now).2 ∧
    Action.roomDeletedNotify ∈ (handleOutgoingClose s p).2 := by
  constructor
  · simp [handleData, hJoiner]
  · simp [handleOutgoingClose, hJoiner]

theorem C9_roomDeleted_triggers_witness :
    Action.roomDeletedNotify ∈ (handleData joinerState0 "H" .roomDeleted 0).2 ∧
    Action.roomDeletedNotify ∈ (handleOutgoingClose joinerState0 "H").2 :=
  C9_roomDeleted_triggers joinerState0 "H" 0 rfl

/-- C1: the claim says the host answers a `RequestState` with a unicast
to the requesting connection only, and the App handler's comment reads
"Send current state to the requester"; but the handler calls
`peerService.send`, which broadcasts to every open connection: with
joiners `A` and `B` connected, `A`'s request makes the host send the
snapshot to `B` (and to `A`) — a broadcast, not a unicast. -/
theorem C1_requestState_response_is_broadcast :
    Action.send "B" (.syncState 7) ∈
      (hostHandleRequestState hostState0 "A" 0 7).2 ∧
    Action.send "A" (.syncState 7) ∈
      (hostHandleRequestState hostState0 "A" 0 7).2 := by
  decide

lemma relayMessage_count_one (s : PeerState) (msg : SyncMessage) (p : String)
    (hnd : (s.connections.map ConnectionInfo.peerId).Nodup)
    (c : ConnectionInfo) (hc : c ∈ s.connections)
    (hopen : c.isOpen = true) (hne : c.peerId ≠ p) :
    (relayMessage s msg p).count (Action.send c.peerId msg) = 1 := by
  have hfnd : ((s.connections.filter
      (fun c => c.peerId != p && c.isOpen)).map ConnectionInfo.peerId).Nodup :=
    hnd.sublist ((List.filter_sublist _).map _)
  have hinj : Function.Injective (fun pid => Action.send pid msg) := by
    intro a b hab
    simpa using hab
  have hnodup : ((s.connections.filter
      (fun c => c.peerId != p && c.isOpen)).map
        (fun c => Action.send c.peerId msg)).Nodup := by
    have := hfnd.map hinj
    simpa [List.map_map, Function.comp] using this
  have hmem : Action.send c.peerId msg ∈
      (s.connections.filter (fun c => c.peerId != p && c.isOpen)).map
        (fun c => Action.send c.peerId msg) :=
    List.mem_map.mpr ⟨c, List.mem_filter.mpr ⟨hc, by simp [hne, hopen]⟩, rfl⟩
  simpa [relayMessage] using List.count_eq_one_of_mem hnodup hmem

lemma relayMessage_excludes_sender (s : PeerState) (msg : SyncMessage)
    (p : String) (m : SyncMessage) :
    Action.send p m ∉ relayMessage s msg p := by
  intro hm
  obtain ⟨c, hcmem, heq⟩ := List.mem_map.mp hm
  have hcf := (List.mem_filter.mp hcmem).2
  have hpe : c.peerId = p := by
    simpa using congrArg (fun a => match a with | Action.send q _ => q | _ => "") heq
  simp [hpe] at hcf

/-- C4: when the host's data handler receives a `StateSync` message from
connection `p`, it relays it exactly once to every other open connection
in the registry, and never sends anything back to `p` while doing so. -/
theorem C4_syncState_relay_exclusion (s : PeerState) (p : String) (st now : Nat)
    (hHost : s.isHost = true)
    (hnd : (s.connections.map ConnectionInfo.peerId).Nodup) :
    (∀ c ∈ s.connections, c.isOpen = true → c.peerId ≠ p →
        (handleData s p (.syncState st) now).2.count
          (Action.send c.peerId (.syncState st)) = 1) ∧
    (∀ m : SyncMessage,
        Action.send p m ∉ (handleData s p (.syncState st) now).2) := by
  have hdata : (handleData s p (.syncState st) now).2 =
      relayMessage s (.syncState st) p ++
        [Action.observerNotify (.syncState st)] := by
    simp [handleData, hHost]
  constructor
  · intro c hc hopen hne
    rw [hdata, List.count_append]
    have h1 := relayMessage_count_one s (.syncState st) p hnd c hc hopen hne
    simp [h1]
  · intro m hm
    rw [hdata] at hm
    rcases List.mem_append.mp hm with h1 | h1
    · exact relayMessage_excludes_sender s (.syncState st) p m h1
    · simp at h1

theorem C4_syncState_relay_exclusion_witness :
    ((handleData hostState0 "A" (.syncState 5) 0).2.count
        (Action.send connB.peerId (.syncState 5)) = 1) ∧
    (∀ m : SyncMessage,
        Action.send "A" m ∉ (handleData hostState0 "A" (.syncState 5) 0).2) := by
  have h := C4_syncState_relay_exclusion hostState0 "A" 5 0 rfl (by decide)
  exact ⟨h.1 connB (by decide) rfl (by decide), h.2⟩

/-- C5 counterexample: the claim quantifies over every set of registered
connections and asks that a `RoomDeleted` send be issued to every
connection before its close; but `deleteRoom` sends only on connections
whose handle is still open, while `disconnect` closes every registered
connection: a registered connection whose handle is no longer open is
closed without ever being sent `RoomDeleted`. -/
theorem C5_closed_conn_gets_no_notice :
    Action.close "A" ∈ (deleteRoom hostWithClosedConn).2 ∧
    Action.send "A" .roomDeleted ∉ (deleteRoom hostWithClosedConn).2 := by
  decide

/-- C5 (amended): host-initiated room deletion issues a `RoomDeleted`
send to every *open* registered connection, and those sends all precede
the 100 ms grace delay, which in turn precedes every close: the trace
splits around `delay 100` with all sends before it and all closes after
it. -/
theorem C5_roomDeleted_sends_before_closes (s : PeerState)
    (hHost : s.isHost = true) :
    ∃ pre post,
      (deleteRoom s).2 = pre ++ Action.delay 100 :: post ∧
      (∀ c ∈ s.connections, c.isOpen = true →
          Action.send c.peerId .roomDeleted ∈ pre) ∧
      (∀ c ∈ s.connections, Action.close c.peerId ∈ post) ∧
      (∀ q, Action.close q ∉ pre) ∧
      (∀ q m, Action.send q m ∉ post) := by
  refine ⟨sendToOpen s.connections .roomDeleted,
          s.connections.map (fun c => Action.close c.peerId),
          ?_, ?_, ?_, ?_, ?_⟩
  · simp [deleteRoom, hHost, disconnect, stopHeartbeat]
  · intro c hc hopen
    exact List.mem_map.mpr ⟨c, List.mem_filter.mpr ⟨hc, hopen⟩, rfl⟩
  · intro c hc
    exact List.mem_map.mpr ⟨c, hc, rfl⟩
  · intro q hq
    simp [sendToOpen] at hq
  · intro q m hm
    simp at hm

theorem C5_roomDeleted_sends_before_closes_witness :
    ∃ pre post,
      (deleteRoom hostState0).2 = pre ++ Action.delay 100 :: post ∧
      (∀ c ∈ hostState0.connections, c.isOpen = true →
          Action.send c.peerId .roomDeleted ∈ pre) ∧
      (∀ c ∈ hostState0.connections, Action.close c.peerId ∈ post) ∧
      (∀ q, Action.close q ∉ pre) ∧
      (∀ q m, Action.send q m ∉ post) :=
  C5_roomDeleted_sends_before_closes hostState0 rfl

/-- C3 counterexample: the claim lists the registry clear among the
mutations after which `connectionCount = registry.size + 1` must hold;
but the clear happens only inside `disconnect`, which resets
`connectionCount` to 0 while the emptied registry would demand 1, and
the post-state is in the Host role. -/
theorem C3_clear_breaks_count_invariant :
    (disconnect hostState0).1.isHost = true ∧
    (disconnect hostState0).1.connectionCount = 0 ∧
    (disconnect hostState0).1.connections.length + 1 = 1 := by
  decide

/-- C3 (amended): on the host, immediately after each registry mutation
that goes through `updateConnectionCount` — connection open, connection
close, connection error, and any stale sweep that removed at least one
connection — the stored `connectionCount` equals the registry size plus
one; the registry clear inside `disconnect` instead resets the count to
0 as part of the teardown to the idle state. -/
theorem C3_count_invariant_after_mutations (s : PeerState) (p : String)
    (now : Nat) (hHost : s.isHost = true) :
    ((handleIncomingOpen s p now).1.connectionCount =
        (handleIncomingOpen s p now).1.connections.length + 1) ∧
    ((handleIncomingClose s p).1.connectionCount =
        (handleIncomingClose s p).1.connections.length + 1) ∧
    ((handleIncomingError s p).1.connectionCount =
        (handleIncomingError s p).1.connections.length + 1) ∧
    (s.connections.filter (isStale now) ≠ [] →
        (timeoutSweep s now).1.connectionCount =
          (timeoutSweep s now).1.connections.length + 1) := by
  refine ⟨?_, ?_, ?_, ?_⟩
  · simp [handleIncomingOpen, hHost, updateConnectionCount]
  · simp [handleIncomingClose, hHost, updateConnectionCount]
  · simp [handleIncomingError, hHost, updateConnectionCount]
  · intro hne
    have hemp : (s.connections.filter (isStale now)).isEmpty = false := by
      simpa [List.isEmpty_iff] using hne
    simp [timeoutSweep, hemp, updateConnectionCount]

theorem C3_count_invariant_after_mutations_witness :
    (handleIncomingOpen hostState0 "C" 0).1.connectionCount =
      (handleIncomingOpen hostState0 "C" 0).1.connections.length + 1 :=
  (C3_count_invariant_after_mutations hostState0 "C" 0 rfl).1

lemma timeoutSweep_connections (s : PeerState) (now : Nat) :
    (timeoutSweep s now).1.connections =
      s.connections.filter (fun c => !isStale now c) := by
  by_cases h : (s.connections.filter (isStale now)).isEmpty <;>
    simp [timeoutSweep, h, updateConnectionCount]

lemma timeoutSweep_not_evicted (s : PeerState) (now : Nat)
    (c : ConnectionInfo) (hc : c ∈ s.connections)
    (hnd : (s.connections.map ConnectionInfo.peerId).Nodup)
    (hfresh : now ≤ c.lastSeen + CONNECTION_TIMEOUT) :
    c ∈ (timeoutSweep s now).1.connections ∧
    Action.close c.peerId ∉ (timeoutSweep s now).2 := by
  have hstale : isStale now c = false := by
    simp only [isStale, CONNECTION_TIMEOUT, decide_eq_false_iff_not] at *
    omega
  constructor
  · rw [timeoutSweep_connections]
    exact List.mem_filter.mpr ⟨hc, by simp [hstale]⟩
  · intro hmem
    by_cases hemp : (s.connections.filter (isStale now)).isEmpty
    · rw [List.isEmpty_iff] at hemp
      simp [timeoutSweep, hemp] at hmem
    · have hemp' : (s.connections.filter (isStale now)).isEmpty = false := by
        simpa using hemp
      simp [timeoutSweep, hemp', updateConnectionCount,
        broadcastConnectionCount, sendToOpen] at hmem
      obtain ⟨d, ⟨hdmem, hdstale⟩, hdp⟩ := hmem
      have : d = c := List.inj_on_of_nodup_map hnd hdmem hc hdp
      rw [this] at hdstale
      rw [hstale] at hdstale
      exact Bool.false_ne_true hdstale

lemma timeoutSweep_evicts (s : PeerState) (now : Nat)
    (c : ConnectionInfo) (hc : c ∈ s.connections)
    (hlate : c.lastSeen + CONNECTION_TIMEOUT < now) :
    Action.close c.peerId ∈ (timeoutSweep s now).2 ∧
    c ∉ (timeoutSweep s now).1.connections := by
  have hstale : isStale now c = true := by
    simp only [isStale, CONNECTION_TIMEOUT, decide_eq_true_eq] at *
    omega
  have hcs : c ∈ s.connections.filter (isStale now) :=
    List.mem_filter.mpr ⟨hc, hstale⟩
  have hemp : (s.connections.filter (isStale now)).isEmpty = false := by
    simpa [List.isEmpty_iff] using List.ne_nil_of_mem hcs
  constructor
  · have hmem : Action.close c.peerId ∈
        (s.connections.filter (isStale now)).map
          (fun d => Action.close d.peerId) :=
      List.mem_map.mpr ⟨c, hcs, rfl⟩
    simp only [timeoutSweep, hemp, Bool.false_eq_true, if_false]
    exact List.mem_append_left _ hmem
  · rw [timeoutSweep_connections]
    intro hmem
    have := (List.mem_filter.mp hmem).2
    rw [hstale] at this
    exact Bool.false_ne_true this

/-- C6: a connection whose `lastSeen` is `t0` is never closed or removed
by a stale sweep that fires before `t0 + 5000` ms, and — with sweeps
firing every 5000 ms from any start instant, and no further heartbeat
refreshing `lastSeen` — there is a sweep instant at or after
`t0 + 15000` ms at which the connection is closed and removed. -/
theorem C6_stale_eviction_window (s : PeerState) (c : ConnectionInfo)
    (start now : Nat) (hc : c ∈ s.connections)
    (hnd : (s.connections.map ConnectionInfo.peerId).Nodup)
    (hEarly : now < c.lastSeen + HEARTBEAT_INTERVAL) :
    (c ∈ (timeoutSweep s now).1.connections ∧
       Action.close c.peerId ∉ (timeoutSweep s now).2) ∧
    (∃ k, c.lastSeen + CONNECTION_TIMEOUT ≤
            start + HEARTBEAT_INTERVAL * (k + 1) ∧
       Action.close c.peerId ∈
         (timeoutSweep s (start + HEARTBEAT_INTERVAL * (k + 1))).2 ∧
       c ∉ (timeoutSweep s (start + HEARTBEAT_INTERVAL * (k + 1))).1.connections) := by
  constructor
  · refine timeoutSweep_not_evicted s now c hc hnd ?_
    simp only [HEARTBEAT_INTERVAL] at hEarly
    simp only [CONNECTION_TIMEOUT]
    omega
  · refine ⟨c.lastSeen + CONNECTION_TIMEOUT, ?_, ?_, ?_⟩
    · simp only [HEARTBEAT_INTERVAL, CONNECTION_TIMEOUT]
      omega
    · refine (timeoutSweep_evicts s _ c hc ?_).1
      simp only [HEARTBEAT_INTERVAL, CONNECTION_TIMEOUT]
      omega
    · refine (timeoutSweep_evicts s _ c hc ?_).2
      simp only [HEARTBEAT_INTERVAL, CONNECTION_TIMEOUT]
      omega

theorem C6_stale_eviction_window_witness :
    (connA ∈ (timeoutSweep hostState0 4999).1.connections ∧
       Action.close connA.peerId ∉ (timeoutSweep hostState0 4999).2) ∧
    (∃ k, connA.lastSeen + CONNECTION_TIMEOUT ≤
            0 + HEARTBEAT_INTERVAL * (k + 1) ∧
       Action.close connA.peerId ∈
         (timeoutSweep hostState0 (0 + HEARTBEAT_INTERVAL * (k + 1))).2 ∧
       connA ∉ (timeoutSweep hostState0 (0 + HEARTBEAT_INTERVAL * (k + 1))).1.connections) :=
  C6_stale_eviction_window hostState0 connA 0 4999 (by decide) (by decide)
    (by decide)

end BoomSync
